import Mathlib

/-!
Shallow embedding of `src/review_environments/main.py` (github_audits).

The repository is a GitHub audit tool: `list_github_repos` resolves the
repositories of an account (probing the org endpoint, falling back to the
user endpoint, then depaginating with page size 100), and
`analyze_github_repo_environments` walks each repository's deployment
environments, emitting one CSV row per secret and per variable.

HTTP is modelled by response oracles: a `Response` carries a numeric
status and an already-parsed body.  Python dictionary access `d["k"]`
(which raises `KeyError` when the key is missing) is modelled by `pyGet`
over an `Option` field, returning in the `Except PyErr` monad; Python
`d.get("k", default)` is modelled by `Option.getD`.  A function returning
`Except.error e` models the Python function raising an uncaught exception:
in that case no rows are written (the source writes its accumulated
`results` list only after the loops complete).  The unbounded `while True`
pagination loop is modelled with explicit fuel; `PyErr.outOfFuel` marks
fuel exhaustion and theorems always supply sufficient fuel.
-/

/-- Exceptions the modelled Python code can raise, plus a fuel marker for
the unbounded pagination loop. -/
inductive PyErr : Type
  | keyError
  | outOfFuel
deriving DecidableEq, Repr

/-- An HTTP response: numeric status code plus an already-parsed body. -/
structure Response (α : Type) : Type where
  status : Nat
  body : α
deriving DecidableEq, Repr

/-- A repository object from the listing endpoint; the code reads
`repo["full_name"]`, which raises when the field is absent. -/
structure RepoObj : Type where
  full_name : Option String
deriving DecidableEq, Repr

/-- An environment object from `GET /repos/{repo}/environments`; the code
reads `env["name"]`. -/
structure EnvObj : Type where
  name : Option String
deriving DecidableEq, Repr

/-- A secret object; the code reads `secret["name"]`. -/
structure SecretObj : Type where
  name : Option String
deriving DecidableEq, Repr

/-- A variable object; the code reads `variable["name"]` and
`variable.get("value", "")`. -/
structure VarObj : Type where
  name : Option String
  value : Option String
deriving DecidableEq, Repr

/-- Body of the environments response; the code reads
`environments_data.get("environments", [])`. -/
structure EnvironmentsBody : Type where
  environments : Option (List EnvObj)
deriving DecidableEq, Repr

/-- Body of the secrets response; the code reads
`secrets_data.get("secrets", [])`. -/
structure SecretsBody : Type where
  secrets : Option (List SecretObj)
deriving DecidableEq, Repr

/-- Body of the variables response; the code reads
`variables_data.get("variables", [])`.  The JSON key "variables" is a Lean
keyword, so the field is named `vars` here. -/
structure VariablesBody : Type where
  vars : Option (List VarObj)
deriving DecidableEq, Repr

/-- Python `d["k"]` on a modelled optional field: the value when present,
`KeyError` when absent. -/
def pyGet : Option String → Except PyErr String
  | some s => Except.ok s
  | none => Except.error PyErr.keyError

/-- Python truthiness test `not s` used by `main` on the token read from
the process environment: `None` and the empty string are falsy. -/
def pyNotTruthy : Option String → Bool
  | none => true
  | some s => s.isEmpty

/-- A 2xx (success) HTTP status. -/
def is2xx (s : Nat) : Prop := 200 ≤ s ∧ s ≤ 299

instance (s : Nat) : Decidable (is2xx s) := by
  unfold is2xx; infer_instance

/-- The response oracle seen by `analyze_github_repo_environments` for one
repository: the environments listing, and per environment name the secrets
and variables listings. -/
structure RepoApi : Type where
  envsResp : Response EnvironmentsBody
  secretsResp : String → Response SecretsBody
  varsResp : String → Response VariablesBody

/-- The loop `for secret in secrets_data.get("secrets", []):
results.append(["SECRET", repo_name, env_name, secret["name"]])`.
`secret["name"]` raises `KeyError` when absent, aborting the whole call. -/
def secretRowsOf (repo_name env_name : String) : List SecretObj → Except PyErr (List (List String))
  | [] => Except.ok []
  | s :: rest =>
    match pyGet s.name with
    | Except.error e => Except.error e
    | Except.ok n =>
      match secretRowsOf repo_name env_name rest with
      | Except.error e => Except.error e
      | Except.ok tail => Except.ok (["SECRET", repo_name, env_name, n] :: tail)

/-- The loop `for variable in variables_data.get("variables", []):
results.append(["VARIABLE", repo_name, env_name, variable["name"],
variable.get("value", "")])`. -/
def variableRowsOf (repo_name env_name : String) : List VarObj → Except PyErr (List (List String))
  | [] => Except.ok []
  | v :: rest =>
    match pyGet v.name with
    | Except.error e => Except.error e
    | Except.ok n =>
      match variableRowsOf repo_name env_name rest with
      | Except.error e => Except.error e
      | Except.ok tail =>
        Except.ok (["VARIABLE", repo_name, env_name, n, v.value.getD ""] :: tail)

/-- The `for env in environments:` loop of
`analyze_github_repo_environments`: per environment, read `env["name"]`,
fetch secrets (emitting rows only on status 200), fetch variables
(likewise), accumulating rows across environments in order. -/
def envRows (repo_name : String) (api : RepoApi) : List EnvObj → Except PyErr (List (List String))
  | [] => Except.ok []
  | env :: rest =>
    match pyGet env.name with
    | Except.error e => Except.error e
    | Except.ok env_name =>
      match
        (if (api.secretsResp env_name).status = 200 then
          secretRowsOf repo_name env_name ((api.secretsResp env_name).body.secrets.getD [])
        else Except.ok []) with
      | Except.error e => Except.error e
      | Except.ok secretRows =>
        match
          (if (api.varsResp env_name).status = 200 then
            variableRowsOf repo_name env_name ((api.varsResp env_name).body.vars.getD [])
          else Except.ok []) with
        | Except.error e => Except.error e
        | Except.ok varRows =>
          match envRows repo_name api rest with
          | Except.error e => Except.error e
          | Except.ok tail => Except.ok (secretRows ++ varRows ++ tail)

/-- `analyze_github_repo_environments(repo_name, token, csv_writer)`: if the
environments call is not status 200, log and return (zero rows written);
otherwise walk every environment and write the accumulated rows.  The
`Except.ok` payload is the list of rows handed to `csv_writer`; an
`Except.error` means the Python call raised before writing anything. -/
def analyze_github_repo_environments (repo_name : String) (api : RepoApi) :
    Except PyErr (List (List String)) :=
  if api.envsResp.status ≠ 200 then Except.ok []
  else envRows repo_name api (api.envsResp.body.environments.getD [])

/-- The response oracle seen by `list_github_repos`: the org-profile probe
(body unused by the code) and, per page number, the org and user
repository listings. -/
structure ListApi : Type where
  orgProbe : Response Unit
  orgRepos : Nat → Response (List RepoObj)
  userRepos : Nat → Response (List RepoObj)

/-- The comprehension `[repo["full_name"] for repo in page_repos]`;
`repo["full_name"]` raises when absent. -/
def extractFullNames : List RepoObj → Except PyErr (List String)
  | [] => Except.ok []
  | r :: rest =>
    match pyGet r.full_name with
    | Except.error e => Except.error e
    | Except.ok n =>
      match extractFullNames rest with
      | Except.error e => Except.error e
      | Except.ok tail => Except.ok (n :: tail)

/-- The `account_type` string printed by `list_github_repos`: "user" when
the org probe status is not 200, "organization" otherwise. -/
def account_type (api : ListApi) : String :=
  if api.orgProbe.status ≠ 200 then "user" else "organization"

/-- The repository-listing endpoint chosen by `list_github_repos`: the
user endpoint when the org probe status is not 200, else the org one. -/
def chosenBase (api : ListApi) : Nat → Response (List RepoObj) :=
  if api.orgProbe.status ≠ 200 then api.userRepos else api.orgRepos

/-- The `while True:` pagination loop of `list_github_repos`: request the
current page; a non-200 status breaks (returning the accumulated `repos`),
an empty page breaks, otherwise extend `repos` with the page's full names
and move to the next page.  `fuel` bounds the unbounded loop. -/
def listLoop (pages : Nat → Response (List RepoObj)) :
    Nat → Nat → List String → Except PyErr (List String)
  | 0, _, _ => Except.error PyErr.outOfFuel
  | fuel + 1, page, repos =>
    let response := pages page
    if response.status ≠ 200 then Except.ok repos
    else if response.body.isEmpty then Except.ok repos
    else
      match extractFullNames response.body with
      | Except.error e => Except.error e
      | Except.ok names => listLoop pages fuel (page + 1) (repos ++ names)

/-- `list_github_repos(account_name, token)`: probe the org endpoint, pick
the listing endpoint accordingly, then depaginate from page 1 with an
empty accumulator. -/
def list_github_repos (api : ListApi) (fuel : Nat) : Except PyErr (List String) :=
  listLoop (chosenBase api) fuel 1 []

/-- The tagged row shape of the output file (spec section 3, OutputRow). -/
inductive OutputRow : Type
  | secretRow (repo env name : String)
  | variableRow (repo env name value : String)
deriving DecidableEq, Repr

/-- The fields a tagged row serialises to, exactly as the code appends
them to `results`. -/
def rowFields : OutputRow → List String
  | OutputRow.secretRow r e n => ["SECRET", r, e, n]
  | OutputRow.variableRow r e n v => ["VARIABLE", r, e, n, v]

/-- Parse one output row back into its tagged shape: 4 fields with the
SECRET discriminant give a secret row, 5 fields with the VARIABLE
discriminant give a variable row. -/
def parseRow : List String → Option OutputRow
  | [tag, r, e, n] => if tag = "SECRET" then some (OutputRow.secretRow r e n) else none
  | [tag, r, e, n, v] => if tag = "VARIABLE" then some (OutputRow.variableRow r e n v) else none
  | _ => none

/-- The whole external world `main` runs against: the listing oracle and,
per repository full name, that repository's audit oracle. -/
structure World : Type where
  listApi : ListApi
  repoApi : String → RepoApi

/-- Observable outcome of running `main`: process exit code, the
user-facing message printed on configuration errors, whether any network
request was issued, whether the output file was opened (created or
truncated), and the rows written to it. -/
structure MainResult : Type where
  exitCode : Nat
  message : Option String
  madeNetworkCall : Bool
  openedOutput : Bool
  rowsWritten : List (List String)
deriving DecidableEq, Repr

/-- The `for repo_name in repos:` loop of `main`, writing each
repository's rows through the shared csv writer.  An audit exception
leaves the rows already written and aborts the run with that error. -/
def runAudits (repoApi : String → RepoApi) : List String → List (List String) × Option PyErr
  | [] => ([], none)
  | r :: rest =>
    match analyze_github_repo_environments r (repoApi r) with
    | Except.error e => ([], some e)
    | Except.ok rows =>
      let tail := runAudits repoApi rest
      (rows ++ tail.1, tail.2)

/-- `main()`: read `GITHUB_TOKEN` from the environment; when falsy, print
the missing-credential message and exit 1 before any network call and
before opening the output file.  Otherwise resolve the repositories (the
org probe is the first network call), open the csv file (truncating), and
audit each repository in order.  An uncaught exception exits non-zero.
The source function is named `main`, which Lean reserves, hence
`main_entry`. -/
def main_entry (github_token : Option String) (w : World) (fuel : Nat) : MainResult :=
  if pyNotTruthy github_token then
    { exitCode := 1
      message := some "Please set GITHUB_TOKEN environment variable"
      madeNetworkCall := false
      openedOutput := false
      rowsWritten := [] }
  else
    match list_github_repos w.listApi fuel with
    | Except.error _ =>
      { exitCode := 1, message := none, madeNetworkCall := true
        openedOutput := false, rowsWritten := [] }
    | Except.ok repos =>
      let audited := runAudits w.repoApi repos
      { exitCode := if audited.2.isSome then 1 else 0
        message := none
        madeNetworkCall := true
        openedOutput := true
        rowsWritten := audited.1 }

deriving instance DecidableEq for Except

/-! ## Helper definitions used by the theorem statements -/

/-- The secret rows the auditor emits for one environment: one per secret
when the secrets call has status 200, none otherwise. -/
def envSecretRows (repo : String) (api : RepoApi) (en : String) : List (List String) :=
  if (api.secretsResp en).status = 200 then
    ((api.secretsResp en).body.secrets.getD []).map fun s => ["SECRET", repo, en, s.name.getD ""]
  else []

/-- The variable rows the auditor emits for one environment: one per
variable when the variables call has status 200, none otherwise. -/
def envVariableRows (repo : String) (api : RepoApi) (en : String) : List (List String) :=
  if (api.varsResp en).status = 200 then
    ((api.varsResp en).body.vars.getD []).map fun v =>
      ["VARIABLE", repo, en, v.name.getD "", v.value.getD ""]
  else []

/-- Value of a variable row as the spec words it: the platform-provided
value when present, the empty string when the field is omitted. -/
def valueOrEmpty : Option String → String
  | some val => val
  | none => ""

/-- Responses whose objects all carry the name field the code reads
unconditionally (`env["name"]`, `secret["name"]`, `variable["name"]`),
wherever the code would read it (i.e. on status-200 bodies). -/
def WellFormedRepoApi (api : RepoApi) : Prop :=
  (∀ env ∈ api.envsResp.body.environments.getD [], env.name.isSome) ∧
  (∀ en, (api.secretsResp en).status = 200 →
    ∀ s ∈ (api.secretsResp en).body.secrets.getD [], s.name.isSome) ∧
  (∀ en, (api.varsResp en).status = 200 →
    ∀ v ∈ (api.varsResp en).body.vars.getD [], v.name.isSome)

/-! ## Concrete response oracles used as witnesses and counterexamples -/

/-- A repository whose environments call fails with a 500. -/
def exFailEnvsApi : RepoApi :=
  ⟨⟨500, ⟨none⟩⟩, fun _ => ⟨404, ⟨none⟩⟩, fun _ => ⟨404, ⟨none⟩⟩⟩

/-- A repository with a successful but empty environments list. -/
def exEmptyEnvsApi : RepoApi :=
  ⟨⟨200, ⟨some []⟩⟩, fun _ => ⟨404, ⟨none⟩⟩, fun _ => ⟨404, ⟨none⟩⟩⟩

/-- A repository whose environments response holds an environment object
with no name field. -/
def exNamelessEnvApi : RepoApi :=
  ⟨⟨200, ⟨some [⟨none⟩]⟩⟩, fun _ => ⟨404, ⟨none⟩⟩, fun _ => ⟨404, ⟨none⟩⟩⟩

/-- A well-formed repository: one environment, one secret, one variable
without a value field. -/
def exWellFormedApi : RepoApi :=
  ⟨⟨200, ⟨some [⟨some "prod"⟩]⟩⟩,
   fun _ => ⟨200, ⟨some [⟨some "S"⟩]⟩⟩,
   fun _ => ⟨200, ⟨some [⟨some "V", none⟩]⟩⟩⟩

/-- One environment whose secrets call fails with a 403 while its
variables call succeeds. -/
def exSecretsFailApi : RepoApi :=
  ⟨⟨200, ⟨some [⟨some "prod"⟩]⟩⟩,
   fun _ => ⟨403, ⟨none⟩⟩,
   fun _ => ⟨200, ⟨some [⟨some "X", some "1"⟩]⟩⟩⟩

/-- One environment with no secrets and two variables, the second lacking
its value field. -/
def exVarDefaultApi : RepoApi :=
  ⟨⟨200, ⟨some [⟨some "prod"⟩]⟩⟩,
   fun _ => ⟨200, ⟨some []⟩⟩,
   fun _ => ⟨200, ⟨some [⟨some "X", some "1"⟩, ⟨some "Y", none⟩]⟩⟩⟩

/-- The spec's worked example: one environment with secrets A and B and
variable (X, 1). -/
def exOrderApi : RepoApi :=
  ⟨⟨200, ⟨some [⟨some "prod"⟩]⟩⟩,
   fun _ => ⟨200, ⟨some [⟨some "A"⟩, ⟨some "B"⟩]⟩⟩,
   fun _ => ⟨200, ⟨some [⟨some "X", some "1"⟩]⟩⟩⟩

/-- An account whose org probe answers 201 (2xx but not 200); the org
listing has one repository, the user listing none. -/
def exProbe201Api : ListApi :=
  ⟨⟨201, ()⟩,
   fun p => if p = 1 then ⟨200, [⟨some "o/a"⟩]⟩ else ⟨200, []⟩,
   fun _ => ⟨200, []⟩⟩

/-- An organization (probe 200) with one page of one repository. -/
def exOrgApi : ListApi :=
  ⟨⟨200, ()⟩,
   fun p => if p = 1 then ⟨200, [⟨some "o/a"⟩]⟩ else ⟨200, []⟩,
   fun _ => ⟨200, []⟩⟩

/-- An organization with exactly one full page of 100 repositories
followed by an empty page. -/
def exOnePageApi : ListApi :=
  ⟨⟨200, ()⟩,
   fun p => if p = 1 then ⟨200, List.replicate 100 ⟨some "octo/r"⟩⟩ else ⟨200, []⟩,
   fun _ => ⟨404, []⟩⟩

/-! ## Lemmas about the per-environment row builders -/

lemma secretRowsOf_eq_map (r e : String) (l : List SecretObj)
    (h : ∀ s ∈ l, s.name.isSome) :
    secretRowsOf r e l = Except.ok (l.map fun s => ["SECRET", r, e, s.name.getD ""]) := by
  induction l with
  | nil => rfl
  | cons s rest ih =>
    obtain ⟨n, hn⟩ := Option.isSome_iff_exists.mp (h s (List.mem_cons_self s rest))
    have ihr := ih fun x hx => h x (List.mem_cons_of_mem s hx)
    simp [secretRowsOf, pyGet, hn, ihr]

lemma variableRowsOf_eq_map (r e : String) (l : List VarObj)
    (h : ∀ v ∈ l, v.name.isSome) :
    variableRowsOf r e l =
      Except.ok (l.map fun v => ["VARIABLE", r, e, v.name.getD "", v.value.getD ""]) := by
  induction l with
  | nil => rfl
  | cons v rest ih =>
    obtain ⟨n, hn⟩ := Option.isSome_iff_exists.mp (h v (List.mem_cons_self v rest))
    have ihr := ih fun x hx => h x (List.mem_cons_of_mem v hx)
    simp [variableRowsOf, pyGet, hn, ihr]

lemma envRows_eq_flatMap (repo : String) (api : RepoApi) (l : List EnvObj)
    (hname : ∀ env ∈ l, env.name.isSome)
    (hsec : ∀ env ∈ l, (api.secretsResp (env.name.getD "")).status = 200 →
        ∀ s ∈ (api.secretsResp (env.name.getD "")).body.secrets.getD [], s.name.isSome)
    (hvar : ∀ env ∈ l, (api.varsResp (env.name.getD "")).status = 200 →
        ∀ v ∈ (api.varsResp (env.name.getD "")).body.vars.getD [], v.name.isSome) :
    envRows repo api l =
      Except.ok (l.flatMap fun env =>
        envSecretRows repo api (env.name.getD "") ++
        envVariableRows repo api (env.name.getD "")) := by
  induction l with
  | nil => rfl
  | cons env rest ih =>
    obtain ⟨en, hen⟩ := Option.isSome_iff_exists.mp (hname env (List.mem_cons_self env rest))
    have hsec1 := hsec env (List.mem_cons_self env rest)
    have hvar1 := hvar env (List.mem_cons_self env rest)
    rw [hen] at hsec1 hvar1
    simp only [Option.getD_some] at hsec1 hvar1
    have ihr := ih (fun x hx => hname x (List.mem_cons_of_mem env hx))
      (fun x hx => hsec x (List.mem_cons_of_mem env hx))
      (fun x hx => hvar x (List.mem_cons_of_mem env hx))
    simp only [envRows, hen, pyGet, ihr, List.flatMap_cons, Option.getD_some]
    by_cases hs : (api.secretsResp en).status = 200
    · rw [if_pos hs, secretRowsOf_eq_map repo en _ (hsec1 hs)]
      by_cases hv : (api.varsResp en).status = 200
      · rw [if_pos hv, variableRowsOf_eq_map repo en _ (hvar1 hv)]
        simp [envSecretRows, envVariableRows, hs, hv, List.append_assoc]
      · rw [if_neg hv]
        simp [envSecretRows, envVariableRows, hs, hv, List.append_assoc]
    · rw [if_neg hs]
      by_cases hv : (api.varsResp en).status = 200
      · rw [if_pos hv, variableRowsOf_eq_map repo en _ (hvar1 hv)]
        simp [envSecretRows, envVariableRows, hs, hv, List.append_assoc]
      · rw [if_neg hv]
        simp [envSecretRows, envVariableRows, hs, hv, List.append_assoc]

lemma ne_200_of_not_is2xx {s : Nat} (h : ¬ is2xx s) : s ≠ 200 := by
  intro he
  subst he
  exact h ⟨Nat.le_refl 200, by norm_num⟩

lemma mem_singleton_env {env : EnvObj} {en : String}
    (h : env ∈ ([⟨some en⟩] : List EnvObj)) : env = ⟨some en⟩ := by
  simpa using h

/-! ## Claims about the environment auditor -/

/-- C5: when the environments-listing call does not succeed, the auditor
returns immediately with zero rows and without raising; a repository whose
environments list is empty likewise yields zero rows and no error. -/
theorem claim_c5_repo_failure_boundary (repo : String) (api : RepoApi) :
    (¬ is2xx api.envsResp.status →
      analyze_github_repo_environments repo api = Except.ok []) ∧
    (api.envsResp.status = 200 → api.envsResp.body.environments.getD [] = [] →
      analyze_github_repo_environments repo api = Except.ok []) := by
  constructor
  · intro h
    simp [analyze_github_repo_environments, ne_200_of_not_is2xx h]
  · intro h200 hempty
    simp [analyze_github_repo_environments, h200, hempty, envRows]

/-- C5 witness: a 500 on the environments call and an empty environments
list each produce zero rows without an error. -/
theorem claim_c5_repo_failure_boundary_witness :
    analyze_github_repo_environments "octo/app" exFailEnvsApi = Except.ok [] ∧
    analyze_github_repo_environments "octo/app" exEmptyEnvsApi = Except.ok [] :=
  ⟨(claim_c5_repo_failure_boundary "octo/app" exFailEnvsApi).1 (by decide),
   (claim_c5_repo_failure_boundary "octo/app" exEmptyEnvsApi).2 rfl rfl⟩

/-- C9 counterexample: an environment object with no name field makes the
audit raise an uncaught KeyError, so it does fail fatally on an unexpected
response shape. -/
theorem claim_c9_counterexample :
    analyze_github_repo_environments "octo/app" exNamelessEnvApi =
      Except.error PyErr.keyError ∧
    ¬ ∃ rows, analyze_github_repo_environments "octo/app" exNamelessEnvApi =
      Except.ok rows := by
  refine ⟨rfl, ?_⟩
  rintro ⟨rows, hrows⟩
  rw [show analyze_github_repo_environments "octo/app" exNamelessEnvApi =
      Except.error PyErr.keyError from rfl] at hrows
  exact Except.noConfusion hrows

/-- C9 (amended): for responses whose objects all carry the name fields
the code reads, the audit never fails fatally — every sub-call HTTP
failure degrades to a logged skip and the auditor returns normally. -/
theorem claim_c9_no_fatal_failure (repo : String) (api : RepoApi)
    (hwf : WellFormedRepoApi api) :
    ∃ rows, analyze_github_repo_environments repo api = Except.ok rows := by
  by_cases h200 : api.envsResp.status = 200
  · refine ⟨(api.envsResp.body.environments.getD []).flatMap fun env =>
      envSecretRows repo api (env.name.getD "") ++
      envVariableRows repo api (env.name.getD ""), ?_⟩
    unfold analyze_github_repo_environments
    rw [if_neg (not_not_intro h200)]
    exact envRows_eq_flatMap repo api _ hwf.1 (fun env _ => hwf.2.1 _)
      (fun env _ => hwf.2.2 _)
  · exact ⟨[], by simp [analyze_github_repo_environments, h200]⟩

/-- C9 witness: a well-formed repository audits to a normal result. -/
theorem claim_c9_no_fatal_failure_witness :
    ∃ rows, analyze_github_repo_environments "octo/site" exWellFormedApi =
      Except.ok rows :=
  claim_c9_no_fatal_failure "octo/site" exWellFormedApi
    ⟨by decide,
     fun en _ => by
       show ∀ s ∈ ([⟨some "S"⟩] : List SecretObj), s.name.isSome
       decide,
     fun en _ => by
       show ∀ v ∈ ([⟨some "V", none⟩] : List VarObj), v.name.isSome
       decide⟩

/-- C4: a failing secrets call for an environment skips the secrets only;
the variables call is still attempted and its rows are emitted. -/
theorem claim_c4_secrets_failure_keeps_vars (repo en : String) (api : RepoApi)
    (vs : List (String × String))
    (henv : api.envsResp.status = 200)
    (hlist : api.envsResp.body.environments.getD [] = [⟨some en⟩])
    (hsec : ¬ is2xx (api.secretsResp en).status)
    (hvar : (api.varsResp en).status = 200)
    (hbody : (api.varsResp en).body.vars.getD [] = vs.map fun p => ⟨some p.1, some p.2⟩) :
    analyze_github_repo_environments repo api =
      Except.ok (vs.map fun p => ["VARIABLE", repo, en, p.1, p.2]) := by
  have hs200 : (api.secretsResp en).status ≠ 200 := ne_200_of_not_is2xx hsec
  have hmaster := envRows_eq_flatMap repo api [⟨some en⟩]
    (by intro env henv2; rw [mem_singleton_env henv2]; rfl)
    (by
      intro env henv2
      rw [mem_singleton_env henv2]
      simp only [Option.getD_some]
      intro hst
      exact absurd hst hs200)
    (by
      intro env henv2
      rw [mem_singleton_env henv2]
      simp only [Option.getD_some]
      intro _
      rw [hbody]
      intro v hv
      simp only [List.mem_map] at hv
      obtain ⟨p, _, rfl⟩ := hv
      rfl)
  unfold analyze_github_repo_environments
  rw [if_neg (not_not_intro henv), hlist, hmaster]
  simp [envSecretRows, envVariableRows, hs200, hvar, hbody, List.map_map,
    Function.comp]

/-- C4 witness: a 403 on secrets with one variable (X, 1) still emits the
variable row. -/
theorem claim_c4_secrets_failure_keeps_vars_witness :
    analyze_github_repo_environments "octo/app" exSecretsFailApi =
      Except.ok [["VARIABLE", "octo/app", "prod", "X", "1"]] :=
  claim_c4_secrets_failure_keeps_vars "octo/app" "prod" exSecretsFailApi
    [("X", "1")] rfl rfl (by decide) rfl rfl

/-- C6: each variable row carries the platform value when present and the
empty string when the value field is omitted. -/
theorem claim_c6_variable_value_default (repo en : String) (api : RepoApi)
    (l : List VarObj)
    (henv : api.envsResp.status = 200)
    (hlist : api.envsResp.body.environments.getD [] = [⟨some en⟩])
    (hsec : (api.secretsResp en).status = 200)
    (hsecbody : (api.secretsResp en).body.secrets.getD [] = [])
    (hvar : (api.varsResp en).status = 200)
    (hbody : (api.varsResp en).body.vars.getD [] = l)
    (hnames : ∀ v ∈ l, v.name.isSome) :
    analyze_github_repo_environments repo api =
      Except.ok (l.map fun v =>
        ["VARIABLE", repo, en, v.name.getD "", valueOrEmpty v.value]) := by
  have hmaster := envRows_eq_flatMap repo api [⟨some en⟩]
    (by intro env henv2; rw [mem_singleton_env henv2]; rfl)
    (by
      intro env henv2
      rw [mem_singleton_env henv2]
      simp only [Option.getD_some]
      intro _
      rw [hsecbody]
      intro s hs
      exact absurd hs (List.not_mem_nil s))
    (by
      intro env henv2
      rw [mem_singleton_env henv2]
      simp only [Option.getD_some]
      intro _
      rw [hbody]
      exact hnames)
  unfold analyze_github_repo_environments
  rw [if_neg (not_not_intro henv), hlist, hmaster]
  simp only [List.flatMap_cons, List.flatMap_nil, List.append_nil,
    envSecretRows, envVariableRows, Option.getD_some, hsec, hsecbody, hvar,
    hbody, if_pos, List.map_nil, List.nil_append]
  refine congrArg Except.ok (List.map_congr_left ?_)
  intro v _
  cases hval : v.value <;> simp [valueOrEmpty, hval]

/-- C6 witness: variables (X, 1) and Y-with-no-value yield rows with
values 1 and the empty string. -/
theorem claim_c6_variable_value_default_witness :
    analyze_github_repo_environments "octo/app" exVarDefaultApi =
      Except.ok [["VARIABLE", "octo/app", "prod", "X", "1"],
                 ["VARIABLE", "octo/app", "prod", "Y", ""]] :=
  claim_c6_variable_value_default "octo/app" "prod" exVarDefaultApi
    [⟨some "X", some "1"⟩, ⟨some "Y", none⟩] rfl rfl rfl rfl rfl rfl
    (by decide)

/-- C7: with the credential environment variable absent, the entry point
exits 1 with the user-facing message, before any network call and before
opening (creating or truncating) the output file, writing no rows. -/
theorem claim_c7_missing_credential (w : World) (fuel : Nat) :
    main_entry none w fuel =
      { exitCode := 1
        message := some "Please set GITHUB_TOKEN environment variable"
        madeNetworkCall := false
        openedOutput := false
        rowsWritten := [] } := rfl

/-- C10: a credential variable set to the empty string is treated exactly
like an absent one: the missing-credential message, exit status 1, no
network call, and no output file opened. -/
theorem claim_c10_empty_credential (w : World) (fuel : Nat) :
    main_entry (some "") w fuel = main_entry none w fuel ∧
    main_entry (some "") w fuel =
      { exitCode := 1
        message := some "Please set GITHUB_TOKEN environment variable"
        madeNetworkCall := false
        openedOutput := false
        rowsWritten := [] } := ⟨rfl, rfl⟩

lemma flatMap_congr_left {α β : Type} {l : List α} {f g : α → List β}
    (h : ∀ a ∈ l, f a = g a) : l.flatMap f = l.flatMap g := by
  induction l with
  | nil => rfl
  | cons a t ih =>
    simp [List.flatMap_cons, h a (by simp), ih fun x hx => h x (by simp [hx])]

/-- C3: with all calls succeeding, the auditor emits every secret row of
an environment before any of its variable rows, each group in API
response order, environments in listing order. -/
theorem claim_c3_row_order (repo : String) (api : RepoApi) (envNames : List String)
    (secretsOf : String → List String) (varsOf : String → List (String × String))
    (henv : api.envsResp.status = 200)
    (hlist : api.envsResp.body.environments.getD [] = envNames.map fun n => ⟨some n⟩)
    (hs : ∀ n ∈ envNames, (api.secretsResp n).status = 200 ∧
      (api.secretsResp n).body.secrets.getD [] = (secretsOf n).map fun s => ⟨some s⟩)
    (hv : ∀ n ∈ envNames, (api.varsResp n).status = 200 ∧
      (api.varsResp n).body.vars.getD [] = (varsOf n).map fun p => ⟨some p.1, some p.2⟩) :
    analyze_github_repo_environments repo api =
      Except.ok (envNames.flatMap fun n =>
        ((secretsOf n).map fun s => ["SECRET", repo, n, s]) ++
        ((varsOf n).map fun p => ["VARIABLE", repo, n, p.1, p.2])) := by
  have hmaster := envRows_eq_flatMap repo api (envNames.map fun n => ⟨some n⟩)
    (by intro env he; simp only [List.mem_map] at he; obtain ⟨n, _, rfl⟩ := he; rfl)
    (by
      intro env he
      simp only [List.mem_map] at he
      obtain ⟨n, hn, rfl⟩ := he
      simp only [Option.getD_some]
      intro _
      rw [(hs n hn).2]
      intro s hsm
      simp only [List.mem_map] at hsm
      obtain ⟨s0, _, rfl⟩ := hsm
      rfl)
    (by
      intro env he
      simp only [List.mem_map] at he
      obtain ⟨n, hn, rfl⟩ := he
      simp only [Option.getD_some]
      intro _
      rw [(hv n hn).2]
      intro v hvm
      simp only [List.mem_map] at hvm
      obtain ⟨p, _, rfl⟩ := hvm
      rfl)
  unfold analyze_github_repo_environments
  rw [if_neg (not_not_intro henv), hlist, hmaster, List.flatMap_map]
  refine congrArg Except.ok (flatMap_congr_left ?_)
  intro n hn
  simp only [Option.getD_some, envSecretRows, envVariableRows,
    (hs n hn).1, (hs n hn).2, (hv n hn).1, (hv n hn).2, if_pos, List.map_map]
  rfl

/-- C3 witness: the spec's example — secrets A, B and variable (X, 1)
emit SECRET A, SECRET B, VARIABLE X 1 in that order. -/
theorem claim_c3_row_order_witness :
    analyze_github_repo_environments "octo/app" exOrderApi =
      Except.ok [["SECRET", "octo/app", "prod", "A"],
                 ["SECRET", "octo/app", "prod", "B"],
                 ["VARIABLE", "octo/app", "prod", "X", "1"]] := by
  have h := claim_c3_row_order "octo/app" exOrderApi ["prod"]
    (fun _ => ["A", "B"]) (fun _ => [("X", "1")]) rfl rfl
    (fun n _ => ⟨rfl, rfl⟩) (fun n _ => ⟨rfl, rfl⟩)
  simpa using h

/-! ## Shape of every emitted row (round-trip parsing) -/

lemma secretRowsOf_shape (r e : String) :
    ∀ (l : List SecretObj) (ys : List (List String)),
      secretRowsOf r e l = Except.ok ys → ∀ y ∈ ys, ∃ n, y = ["SECRET", r, e, n] := by
  intro l
  induction l with
  | nil =>
    intro ys h y hy
    simp only [secretRowsOf, Except.ok.injEq] at h
    subst h
    simp at hy
  | cons s rest ih =>
    intro ys h y hy
    cases hn : s.name with
    | none => simp [secretRowsOf, pyGet, hn] at h
    | some n =>
      cases hrec : secretRowsOf r e rest with
      | error err => simp [secretRowsOf, pyGet, hn, hrec] at h
      | ok tail =>
        simp only [secretRowsOf, pyGet, hn, hrec, Except.ok.injEq] at h
        subst h
        rcases List.mem_cons.mp hy with hy1 | hy2
        · exact ⟨n, hy1⟩
        · exact ih tail hrec y hy2

lemma variableRowsOf_shape (r e : String) :
    ∀ (l : List VarObj) (ys : List (List String)),
      variableRowsOf r e l = Except.ok ys →
      ∀ y ∈ ys, ∃ n v, y = ["VARIABLE", r, e, n, v] := by
  intro l
  induction l with
  | nil =>
    intro ys h y hy
    simp only [variableRowsOf, Except.ok.injEq] at h
    subst h
    simp at hy
  | cons w rest ih =>
    intro ys h y hy
    cases hn : w.name with
    | none => simp [variableRowsOf, pyGet, hn] at h
    | some n =>
      cases hrec : variableRowsOf r e rest with
      | error err => simp [variableRowsOf, pyGet, hn, hrec] at h
      | ok tail =>
        simp only [variableRowsOf, pyGet, hn, hrec, Except.ok.injEq] at h
        subst h
        rcases List.mem_cons.mp hy with hy1 | hy2
        · exact ⟨n, w.value.getD "", hy1⟩
        · exact ih tail hrec y hy2

lemma envRows_shape (repo : String) (api : RepoApi) :
    ∀ (l : List EnvObj) (ys : List (List String)),
      envRows repo api l = Except.ok ys →
      ∀ y ∈ ys, (∃ e n, y = ["SECRET", repo, e, n]) ∨
                (∃ e n v, y = ["VARIABLE", repo, e, n, v]) := by
  intro l
  induction l with
  | nil =>
    intro ys h y hy
    simp only [envRows, Except.ok.injEq] at h
    subst h
    simp at hy
  | cons env rest ih =>
    intro ys h y hy
    cases hn : env.name with
    | none => simp [envRows, pyGet, hn] at h
    | some en =>
      cases hS : (if (api.secretsResp en).status = 200 then
          secretRowsOf repo en ((api.secretsResp en).body.secrets.getD [])
        else Except.ok []) with
      | error err => simp [envRows, pyGet, hn, hS] at h
      | ok srows =>
        cases hV : (if (api.varsResp en).status = 200 then
            variableRowsOf repo en ((api.varsResp en).body.vars.getD [])
          else Except.ok []) with
        | error err => simp [envRows, pyGet, hn, hS, hV] at h
        | ok vrows =>
          cases hT : envRows repo api rest with
          | error err => simp [envRows, pyGet, hn, hS, hV, hT] at h
          | ok tail =>
            have hsecshape : ∀ y2 ∈ srows, ∃ n2, y2 = ["SECRET", repo, en, n2] := by
              split at hS
              · exact secretRowsOf_shape repo en _ srows hS
              · simp only [Except.ok.injEq] at hS
                subst hS
                simp
            have hvarshape : ∀ y2 ∈ vrows, ∃ n2 v2, y2 = ["VARIABLE", repo, en, n2, v2] := by
              split at hV
              · exact variableRowsOf_shape repo en _ vrows hV
              · simp only [Except.ok.injEq] at hV
                subst hV
                simp
            simp only [envRows, pyGet, hn, hS, hV, hT, Except.ok.injEq] at h
            subst h
            simp only [List.append_assoc, List.mem_append] at hy
            rcases hy with hy1 | hy2 | hy3
            · obtain ⟨n2, rfl⟩ := hsecshape y hy1
              exact Or.inl ⟨en, n2, rfl⟩
            · obtain ⟨n2, v2, rfl⟩ := hvarshape y hy2
              exact Or.inr ⟨en, n2, v2, rfl⟩
            · exact ih tail hT y hy3

/-- C8: every row the auditor emits parses back unambiguously into its
tagged shape via the SECRET/VARIABLE discriminant, recovering the repo,
environment, name (and value) that produced it, and serialising the
parsed row reproduces the original fields. -/
theorem claim_c8_roundtrip (repo : String) (api : RepoApi)
    (rows : List (List String)) (row : List String)
    (h : analyze_github_repo_environments repo api = Except.ok rows)
    (hm : row ∈ rows) :
    (∃ e n, row = ["SECRET", repo, e, n] ∧
      parseRow row = some (OutputRow.secretRow repo e n) ∧
      rowFields (OutputRow.secretRow repo e n) = row) ∨
    (∃ e n v, row = ["VARIABLE", repo, e, n, v] ∧
      parseRow row = some (OutputRow.variableRow repo e n v) ∧
      rowFields (OutputRow.variableRow repo e n v) = row) := by
  unfold analyze_github_repo_environments at h
  by_cases h200 : api.envsResp.status ≠ 200
  · rw [if_pos h200] at h
    simp only [Except.ok.injEq] at h
    subst h
    simp at hm
  · rw [if_neg h200] at h
    rcases envRows_shape repo api _ rows h row hm with ⟨e, n, rfl⟩ | ⟨e, n, v, rfl⟩
    · exact Or.inl ⟨e, n, rfl, by simp [parseRow], rfl⟩
    · exact Or.inr ⟨e, n, v, rfl, by simp [parseRow], rfl⟩

/-- C8 witness: the first row emitted for the worked example parses back
to its tagged secret shape. -/
theorem claim_c8_roundtrip_witness :
    (∃ e n, (["SECRET", "octo/app", "prod", "A"] : List String) =
        ["SECRET", "octo/app", e, n] ∧
      parseRow ["SECRET", "octo/app", "prod", "A"] =
        some (OutputRow.secretRow "octo/app" e n) ∧
      rowFields (OutputRow.secretRow "octo/app" e n) =
        ["SECRET", "octo/app", "prod", "A"]) ∨
    (∃ e n v, (["SECRET", "octo/app", "prod", "A"] : List String) =
        ["VARIABLE", "octo/app", e, n, v] ∧
      parseRow ["SECRET", "octo/app", "prod", "A"] =
        some (OutputRow.variableRow "octo/app" e n v) ∧
      rowFields (OutputRow.variableRow "octo/app" e n v) =
        ["SECRET", "octo/app", "prod", "A"]) :=
  claim_c8_roundtrip "octo/app" exOrderApi _ _ rfl (by decide)

/-! ## Pagination of the account resolver -/

lemma extractFullNames_length :
    ∀ (l : List RepoObj) (ns : List String),
      extractFullNames l = Except.ok ns → ns.length = l.length := by
  intro l
  induction l with
  | nil =>
    intro ns h
    simp only [extractFullNames, Except.ok.injEq] at h
    subst h
    rfl
  | cons r rest ih =>
    intro ns h
    cases hn : r.full_name with
    | none => simp [extractFullNames, pyGet, hn] at h
    | some n =>
      cases hrec : extractFullNames rest with
      | error err => simp [extractFullNames, pyGet, hn, hrec] at h
      | ok tail =>
        simp only [extractFullNames, pyGet, hn, hrec, Except.ok.injEq] at h
        subst h
        simp [ih tail hrec]

lemma length_flatMap_hundred (f : Nat → List String) :
    ∀ (l : List Nat), (∀ j ∈ l, (f j).length = 100) →
      (l.flatMap f).length = 100 * l.length := by
  intro l
  induction l with
  | nil => simp
  | cons a t ih =>
    intro h
    simp only [List.flatMap_cons, List.length_append, List.length_cons,
      h a (List.mem_cons_self a t), ih fun j hj => h j (List.mem_cons_of_mem a hj)]
    ring

lemma listLoop_run (pages : Nat → Response (List RepoObj)) (namesOf : Nat → List String) :
    ∀ (k fuel p : Nat) (acc : List String), k < fuel →
    (∀ i, p ≤ i → i < p + k → (pages i).status = 200 ∧ (pages i).body.isEmpty = false ∧
      extractFullNames (pages i).body = Except.ok (namesOf i)) →
    ((pages (p + k)).status ≠ 200 ∨ (pages (p + k)).body.isEmpty = true) →
    listLoop pages fuel p acc =
      Except.ok (acc ++ (List.range k).flatMap fun j => namesOf (p + j)) := by
  intro k
  induction k with
  | zero =>
    intro fuel p acc hfuel _ hstop
    obtain ⟨m, rfl⟩ : ∃ m, fuel = m + 1 := ⟨fuel - 1, by omega⟩
    rw [Nat.add_zero] at hstop
    rcases hstop with hstop | hstop
    · simp [listLoop, hstop]
    · simp [listLoop, hstop]
  | succ k ih =>
    intro fuel p acc hfuel hgood hstop
    obtain ⟨m, rfl⟩ : ∃ m, fuel = m + 1 := ⟨fuel - 1, by omega⟩
    obtain ⟨h200, hne, hex⟩ := hgood p (Nat.le_refl p) (by omega)
    have hrec := ih m (p + 1) (acc ++ namesOf p) (by omega)
      (fun i h1 h2 => hgood i (by omega) (by omega))
      (by
        have harith : p + 1 + k = p + (k + 1) := by omega
        rw [harith]
        exact hstop)
    simp only [listLoop, h200, hne, hex, ne_eq, not_true_eq_false, if_false,
      Bool.false_eq_true, hrec]
    refine congrArg Except.ok ?_
    rw [List.append_assoc]
    congr 1
    rw [List.range_succ_eq_map, List.flatMap_cons, List.flatMap_map, Nat.add_zero]
    congr 1
    exact flatMap_congr_left fun j _ => congrArg namesOf (by omega)

/-- C1: N consecutive status-200 pages of 100 repositories followed by an
empty page make the resolver return exactly the 100 x N full names
concatenated in page order; a page with a non-success status instead
makes it return just the names accumulated from the prior successful
pages, surfacing no error to the caller. -/
theorem claim_c1_pagination (api : ListApi) (fuel N : Nat) (namesOf : Nat → List String)
    (hfuel : N < fuel)
    (hgood : ∀ i, 1 ≤ i → i ≤ N → (chosenBase api i).status = 200 ∧
      (chosenBase api i).body.length = 100 ∧
      extractFullNames (chosenBase api i).body = Except.ok (namesOf i)) :
    ((chosenBase api (N + 1)).status = 200 → (chosenBase api (N + 1)).body = [] →
      list_github_repos api fuel =
        Except.ok ((List.range N).flatMap fun j => namesOf (1 + j)) ∧
      ((List.range N).flatMap fun j => namesOf (1 + j)).length = 100 * N) ∧
    (¬ is2xx (chosenBase api (N + 1)).status →
      list_github_repos api fuel =
        Except.ok ((List.range N).flatMap fun j => namesOf (1 + j))) := by
  have hgood2 : ∀ i, 1 ≤ i → i < 1 + N → (chosenBase api i).status = 200 ∧
      (chosenBase api i).body.isEmpty = false ∧
      extractFullNames (chosenBase api i).body = Except.ok (namesOf i) := by
    intro i h1 h2
    obtain ⟨ha, hb, hc⟩ := hgood i h1 (by omega)
    refine ⟨ha, ?_, hc⟩
    cases hbody : (chosenBase api i).body with
    | nil => rw [hbody] at hb; simp at hb
    | cons a t => rfl
  have hlen100 : ∀ j ∈ List.range N, (namesOf (1 + j)).length = 100 := by
    intro j hj
    rw [List.mem_range] at hj
    obtain ⟨ha, hb, hc⟩ := hgood (1 + j) (by omega) (by omega)
    rw [extractFullNames_length _ _ hc, hb]
  have hlen := length_flatMap_hundred (fun j => namesOf (1 + j)) (List.range N) hlen100
  rw [List.length_range] at hlen
  constructor
  · intro hstat hempty
    refine ⟨?_, hlen⟩
    have hstop : (chosenBase api (1 + N)).status ≠ 200 ∨
        (chosenBase api (1 + N)).body.isEmpty = true := by
      right
      rw [show 1 + N = N + 1 from by omega, hempty]
      rfl
    unfold list_github_repos
    simpa using listLoop_run (chosenBase api) namesOf N fuel 1 [] hfuel hgood2 hstop
  · intro hfail
    have hstop : (chosenBase api (1 + N)).status ≠ 200 ∨
        (chosenBase api (1 + N)).body.isEmpty = true := by
      left
      rw [show 1 + N = N + 1 from by omega]
      exact ne_200_of_not_is2xx hfail
    unfold list_github_repos
    simpa using listLoop_run (chosenBase api) namesOf N fuel 1 [] hfuel hgood2 hstop

/-- C1 witness: one full page of 100 repositories then an empty page
yields exactly those 100 names. -/
theorem claim_c1_pagination_witness :
    list_github_repos exOnePageApi 2 =
      Except.ok ((List.range 1).flatMap fun _ => List.replicate 100 "octo/r") ∧
    ((List.range 1).flatMap fun _ => List.replicate 100 "octo/r").length = 100 * 1 :=
  (claim_c1_pagination exOnePageApi 2 1 (fun _ => List.replicate 100 "octo/r")
    (by omega)
    (fun i h1 h2 => by
      have hi : i = 1 := by omega
      subst hi
      exact ⟨rfl, by decide, by decide⟩)).1 rfl rfl

/-- C2 counterexample: a 2xx-but-not-200 probe status (201) makes the
code fall back to the user listing endpoint, contradicting the claim that
every successful (2xx) probe selects the organization endpoint. -/
theorem claim_c2_counterexample :
    ¬ (∀ (api : ListApi) (fuel : Nat), is2xx api.orgProbe.status →
        list_github_repos api fuel = listLoop api.orgRepos fuel 1 []) := by
  intro h
  have h2 := h exProbe201Api 2 (by decide)
  have h3 : list_github_repos exProbe201Api 2 = Except.ok [] := rfl
  have h4 : listLoop exProbe201Api.orgRepos 2 1 [] = Except.ok ["o/a"] := rfl
  rw [h3, h4] at h2
  simp at h2

/-- C2 (amended): the probe dispatch is decided by status 200 exactly: a
200 probe selects the organization listing endpoint, and any non-200
status — transient errors and other 2xx codes alike, with no second level
of error distinction — falls back to the user listing endpoint. -/
theorem claim_c2_probe_dispatch (api : ListApi) (fuel : Nat) :
    (api.orgProbe.status = 200 →
      account_type api = "organization" ∧
      list_github_repos api fuel = listLoop api.orgRepos fuel 1 []) ∧
    (api.orgProbe.status ≠ 200 →
      account_type api = "user" ∧
      list_github_repos api fuel = listLoop api.userRepos fuel 1 []) := by
  constructor
  · intro h
    exact ⟨by simp [account_type, h], by simp [list_github_repos, chosenBase, h]⟩
  · intro h
    exact ⟨by simp [account_type, h], by simp [list_github_repos, chosenBase, h]⟩

/-- C2 witness: a 200 probe dispatches to the organization listing. -/
theorem claim_c2_probe_dispatch_witness :
    account_type exOrgApi = "organization" ∧
    list_github_repos exOrgApi 2 = listLoop exOrgApi.orgRepos 2 1 [] :=
  (claim_c2_probe_dispatch exOrgApi 2).1 rfl
